import Mathlib

/-
Verification of the conversion logic of src/vertexAiWorkspace/combine_json.py
(function convert_vertexai_messages_to_md and the script entry point).

The embedding models the parsed JSON value space, the Python operations the
script performs on it (membership test, subscription, dict get, iteration,
str.capitalize, str formatting), and the control flow of the conversion,
including which exceptions each handler catches.  The filesystem, the JSON
deserializer and the console are external collaborators: the conversion is
modelled as a function from "input open failed / parse failed / parsed value"
to the sequence of strings written to the output file and the sequence of
lines printed to the console.
-/

set_option autoImplicit false

namespace CombineJson

/-- A parsed JSON value, as produced by json.load.  Numbers are modelled as
integers (the script never computes with them). -/
inductive Json where
  | null : Json
  | bool : Bool → Json
  | num : Int → Json
  | str : String → Json
  | arr : List Json → Json
  | obj : List (String × Json) → Json

/-- Python exceptions that the modelled operations can raise. -/
inductive PyErr where
  | keyErr : String → PyErr
  | typeErr : String → PyErr
  | attrErr : String → PyErr

/-- The Python type name of a value, used in exception messages. -/
def pyTypeName : Json → String
  | Json.null => "NoneType"
  | Json.bool _ => "bool"
  | Json.num _ => "int"
  | Json.str _ => "str"
  | Json.arr _ => "list"
  | Json.obj _ => "dict"

mutual

/-- Python repr of a JSON value (str for containers falls back to repr). -/
def pyRepr : Json → String
  | Json.null => "None"
  | Json.bool b => if b then "True" else "False"
  | Json.num n => toString n
  | Json.str s => "\x27" ++ s ++ "\x27"
  | Json.arr xs => "[" ++ pyReprItems xs ++ "]"
  | Json.obj kvs => "\x7b" ++ pyReprFields kvs ++ "\x7d"

/-- Comma separated reprs of list items. -/
def pyReprItems : List Json → String
  | [] => ""
  | [x] => pyRepr x
  | x :: y :: rest => pyRepr x ++ ", " ++ pyReprItems (y :: rest)

/-- Comma separated reprs of dict entries. -/
def pyReprFields : List (String × Json) → String
  | [] => ""
  | [(k, v)] => "\x27" ++ k ++ "\x27: " ++ pyRepr v
  | (k, v) :: e :: rest =>
      "\x27" ++ k ++ "\x27: " ++ pyRepr v ++ ", " ++ pyReprFields (e :: rest)

end

/-- Python str() of a JSON value, as used by f-string formatting. -/
def pyStr : Json → String
  | Json.str s => s
  | v => pyRepr v

/-- Python str() of an exception, as used by f-string formatting
(str of a KeyError is the repr of the missing key). -/
def pyErrStr : PyErr → String
  | PyErr.keyErr k => "\x27" ++ k ++ "\x27"
  | PyErr.typeErr m => m
  | PyErr.attrErr m => m

/-- Python str.capitalize (ASCII): first character uppercased, every
remaining character lowercased. -/
def pyCap (s : String) : String :=
  match s.data with
  | [] => ""
  | c :: rest => String.mk (c.toUpper :: rest.map Char.toLower)

/-- Lookup of a key in a parsed JSON object (Python dict; json.load
produces unique keys, the model returns the first binding). -/
def jLookup : List (String × Json) → String → Option Json
  | [], _ => none
  | (k, v) :: rest, key => if k = key then some v else jLookup rest key

/-- Does the first list occur as a prefix of the second. -/
def listStartsWith : List Char → List Char → Bool
  | [], _ => true
  | _ :: _, [] => false
  | a :: as, b :: bs => a = b && listStartsWith as bs

/-- Does the first list occur as a contiguous sublist of the second. -/
def listHasSub : List Char → List Char → Bool
  | needle, [] => needle.isEmpty
  | needle, c :: rest => listStartsWith needle (c :: rest) || listHasSub needle rest

/-- Python membership test (key in value): key lookup on dicts, substring
test on strings, element equality on lists, TypeError otherwise. -/
def pyContains (key : String) : Json → Except PyErr Bool
  | Json.obj kvs => Except.ok (jLookup kvs key).isSome
  | Json.str s => Except.ok (listHasSub key.data s.data)
  | Json.arr xs =>
      Except.ok (xs.any fun x =>
        match x with
        | Json.str t => t = key
        | _ => false)
  | v =>
      Except.error (PyErr.typeErr
        ("argument of type \x27" ++ pyTypeName v ++ "\x27 is not iterable"))

/-- Python subscription value[key] with a string key. -/
def pySubscript : Json → String → Except PyErr Json
  | Json.obj kvs, key =>
      match jLookup kvs key with
      | some v => Except.ok v
      | none => Except.error (PyErr.keyErr key)
  | Json.str _, _ =>
      Except.error (PyErr.typeErr "string indices must be integers")
  | Json.arr _, _ =>
      Except.error (PyErr.typeErr "list indices must be integers or slices, not str")
  | v, _ =>
      Except.error (PyErr.typeErr
        ("\x27" ++ pyTypeName v ++ "\x27 object is not subscriptable"))

/-- Python value.get(key, default): defined on dicts, AttributeError
on every other value. -/
def pyGet : Json → String → Json → Except PyErr Json
  | Json.obj kvs, key, dflt => Except.ok ((jLookup kvs key).getD dflt)
  | v, _, _ =>
      Except.error (PyErr.attrErr
        ("\x27" ++ pyTypeName v ++ "\x27 object has no attribute \x27get\x27"))

/-- Python iteration over a value: list elements, string characters,
dict keys, TypeError otherwise. -/
def pyIter : Json → Except PyErr (List Json)
  | Json.arr xs => Except.ok xs
  | Json.str s => Except.ok (s.data.map fun c => Json.str (String.mk [c]))
  | Json.obj kvs => Except.ok (kvs.map fun kv => Json.str kv.1)
  | v =>
      Except.error (PyErr.typeErr
        ("\x27" ++ pyTypeName v ++ "\x27 object is not iterable"))

/-- Python value.capitalize(): defined on strings, AttributeError otherwise. -/
def pyCapitalize : Json → Except PyErr String
  | Json.str s => Except.ok (pyCap s)
  | v =>
      Except.error (PyErr.attrErr
        ("\x27" ++ pyTypeName v ++ "\x27 object has no attribute \x27capitalize\x27"))

/-- Author resolution of one message (0-based enumerate index i):
if author is a key, message.get of author, capitalized; elif role is a key,
message.get of role, capitalized; else the synthesized placeholder label
naming the 1-based position i+1. -/
def resolveAuthor (i : Nat) (message : Json) : Except PyErr String :=
  match pyContains "author" message with
  | Except.error e => Except.error e
  | Except.ok true =>
      match pyGet message "author" (Json.str "unknown") with
      | Except.error e => Except.error e
      | Except.ok v => pyCapitalize v
  | Except.ok false =>
      match pyContains "role" message with
      | Except.error e => Except.error e
      | Except.ok true =>
          match pyGet message "role" (Json.str "unknown") with
          | Except.error e => Except.error e
          | Except.ok v => pyCapitalize v
      | Except.ok false =>
          Except.ok ("Message " ++ toString (i + 1) ++ " (Unknown Author)")

/-- Content resolution of one message: the content field if the key is
present, else the text field, else the literal placeholder string. -/
def resolveContent (message : Json) : Except PyErr Json :=
  match pyContains "content" message with
  | Except.error e => Except.error e
  | Except.ok true => pyGet message "content" (Json.str "")
  | Except.ok false =>
      match pyContains "text" message with
      | Except.error e => Except.error e
      | Except.ok true => pyGet message "text" (Json.str "")
      | Except.ok false =>
          Except.ok (Json.str "*No text content found in this message.*")

/-- The loop over parts: for each part, write part[text] followed by a
newline; a failing subscription stops the loop with the writes made so far. -/
def writeParts : List Json → List String × Option PyErr
  | [] => ([], none)
  | p :: rest =>
      match pySubscript p "text" with
      | Except.error e => ([], some e)
      | Except.ok t =>
          let (ws, err) := writeParts rest
          ((pyStr t ++ "\n") :: ws, err)

/-- The body of one loop iteration: resolve author, print it, resolve
content, subscript parts out of the content, write the heading, iterate
the parts.  Returns file writes, console prints, and the exception that
escaped the iteration, if any.  The parts subscription happens before the
heading write, exactly as in the source. -/
def processMessage (i : Nat) (message : Json) :
    List String × List String × Option PyErr :=
  match resolveAuthor i message with
  | Except.error e => ([], [], some e)
  | Except.ok author =>
      match resolveContent message with
      | Except.error e => ([], [author], some e)
      | Except.ok content =>
          match pySubscript content "parts" with
          | Except.error e => ([], [author], some e)
          | Except.ok partsVal =>
              match pyIter partsVal with
              | Except.error e => (["## " ++ author ++ "\n\n"], [author], some e)
              | Except.ok parts =>
                  let (pw, perr) := writeParts parts
                  (("## " ++ author ++ "\n\n") :: pw, [author], perr)

/-- The enumerate loop over the messages, starting at index i; an escaping
exception stops the loop, keeping the writes and prints made so far. -/
def processMessages (i : Nat) : List Json → List String × List String × Option PyErr
  | [] => ([], [], none)
  | m :: rest =>
      match processMessage i m with
      | (w, l, some e) => (w, l, some e)
      | (w, l, none) =>
          let (w2, l2, e2) := processMessages (i + 1) rest
          (w ++ w2, l ++ l2, e2)

/-- The unconditional document header write. -/
def headerWrite : String := "# Vertex AI Conversation Log\n\n"

/-- The error section written when the parsed value has no usable
messages list. -/
def shapeErrWrite : String :=
  "## Error\n\nInput file does not contain a valid \x27messages\x27 list.\n"

/-- The error section written when JSON parsing fails. -/
def parseErrWrite : String :=
  "## Error\n\nCould not parse the input file. Please ensure it is a valid JSON file.\n"

/-- The placeholder written for an empty messages list. -/
def noMsgsWrite : String := "*No messages found in the file.*\n"

/-- The console line for a missing or invalid messages list. -/
def shapeErrLog (input_file : String) : String :=
  "Error: Input file \x27" ++ input_file ++ "\x27 does not contain a \x27messages\x27 list."

/-- The console line for a JSON parse failure. -/
def parseLog (input_file : String) : String :=
  "Error: Could not parse \x27" ++ input_file ++ "\x27. It may not be a valid JSON file."

/-- The console line for an unopenable input file. -/
def notFoundLog (input_file : String) : String :=
  "Error: The input file \x27" ++ input_file ++ "\x27 was not found."

/-- The console line for success with zero messages. -/
def zeroLog (output_file : String) : String :=
  "Successfully created \x27" ++ output_file ++ "\x27, but no messages were found."

/-- The console line for a successful conversion of n messages. -/
def successLog (n : Nat) (input_file output_file : String) : String :=
  "Successfully converted " ++ toString n ++ " messages from \x27" ++ input_file
    ++ "\x27 to \x27" ++ output_file ++ "\x27"

/-- The console line printed by the generic exception handler. -/
def unexpectedLog (e : PyErr) : String :=
  "An unexpected error occurred: " ++ pyErrStr e

/-- Python isinstance(v, list). -/
def isList : Json → Bool
  | Json.arr _ => true
  | _ => false

/-- The conversion steps on a successfully parsed value, after the header
write: validate the messages field, handle the empty list, or run the
message loop.  Returns file writes after the header, console prints, and
the exception escaping the inner try block, if any (the inner handler
catches only json.JSONDecodeError, which cannot arise here). -/
def convertParsed (input_file output_file : String) (data : Json) :
    List String × List String × Option PyErr :=
  match pyContains "messages" data with
  | Except.error e => ([], [], some e)
  | Except.ok false => ([shapeErrWrite], [shapeErrLog input_file], none)
  | Except.ok true =>
      match pySubscript data "messages" with
      | Except.error e => ([], [], some e)
      | Except.ok mv =>
          if isList mv then
            match mv with
            | Json.arr msgs =>
                if msgs.isEmpty then ([noMsgsWrite], [zeroLog output_file], none)
                else
                  match processMessages 0 msgs with
                  | (w, l, none) =>
                      (w, l ++ [successLog msgs.length input_file output_file], none)
                  | (w, l, some e) => (w, l, some e)
            | _ => ([shapeErrWrite], [shapeErrLog input_file], none)
          else ([shapeErrWrite], [shapeErrLog input_file], none)

/-- The outcome of the external collaborators for one conversion call:
the input path cannot be opened, or it opens but the stream is not valid
JSON, or it parses to a value. -/
inductive ConvInput where
  | notFound : ConvInput
  | parseFail : ConvInput
  | parsed : Json → ConvInput

/-- Observable outcome of one conversion call: the writes made to the
output file in order (none when the output file is never opened, so its
content is neither created nor truncated), and the console lines printed
in order. -/
structure ConvResult where
  fileWrites : Option (List String)
  log : List String

/-- An exception escaping the with block of the conversion, before the
outer handlers run. -/
inductive PyException where
  | fileNotFound : PyException
  | err : PyErr → PyException

/-- The exception escaping the with block, if any: opening the input
raises FileNotFoundError before the output file is opened; on the parsed
path the inner loop can raise. -/
def convertEscape (input_file output_file : String) : ConvInput → Option PyException
  | ConvInput.notFound => some PyException.fileNotFound
  | ConvInput.parseFail => none
  | ConvInput.parsed data =>
      (convertParsed input_file output_file data).2.2.map PyException.err

/-- Whether the outer handlers catch an escaping exception:
FileNotFoundError matches the first clause, and every other modelled
exception is an Exception subclass matching the second clause. -/
def pyExceptionIsCaught : PyException → Bool
  | PyException.fileNotFound => true
  | PyException.err _ => true

/-- The full conversion call convert_vertexai_messages_to_md: header write,
parse outcome dispatch, message loop, and the outer handlers turning an
escaping exception into a console line. -/
def convert (input_file output_file : String) : ConvInput → ConvResult
  | ConvInput.notFound => ⟨none, [notFoundLog input_file]⟩
  | ConvInput.parseFail =>
      ⟨some [headerWrite, parseErrWrite], [parseLog input_file]⟩
  | ConvInput.parsed data =>
      match convertParsed input_file output_file data with
      | (w, l, none) => ⟨some (headerWrite :: w), l⟩
      | (w, l, some e) => ⟨some (headerWrite :: w), l ++ [unexpectedLog e]⟩

/-- The process exit code of the script: the entry point calls convert and
ends; the interpreter exits 0 unless an exception escapes uncaught. -/
def scriptExitCode (input_file output_file : String) (inp : ConvInput) : Nat :=
  match convertEscape input_file output_file inp with
  | none => 0
  | some exc => if pyExceptionIsCaught exc then 0 else 1

/-- Statement-side predicate: the author fields of a message object allow
author resolution to succeed (present values are strings). -/
def authorOk (kvs : List (String × Json)) : Bool :=
  match jLookup kvs "author" with
  | some (Json.str _) => true
  | some _ => false
  | none =>
      match jLookup kvs "role" with
      | some (Json.str _) => true
      | some _ => false
      | none => true

/-- Statement-side function: the resolved content of a message object
(content field, else text field, else the placeholder string). -/
def resolvedContent (kvs : List (String × Json)) : Json :=
  match jLookup kvs "content" with
  | some v => v
  | none =>
      match jLookup kvs "text" with
      | some v => v
      | none => Json.str "*No text content found in this message.*"

/-- Statement-side predicate: a part is an object carrying a text field. -/
def isTextedPart : Json → Bool
  | Json.obj pkvs => (jLookup pkvs "text").isSome
  | _ => false

/-- Statement-side predicate: a well-formed message is an object whose
author fields are usable and whose resolved content is an object with a
parts list of texted parts. -/
def WfMsg : Json → Bool
  | Json.obj kvs =>
      authorOk kvs &&
        (match resolvedContent kvs with
         | Json.obj ckvs =>
             match jLookup ckvs "parts" with
             | some (Json.arr ps) => ps.all isTextedPart
             | _ => false
         | _ => false)
  | _ => false

/-- Statement-side function: the author label a message renders with at
0-based enumerate index i (junk outside the well-formed cases). -/
def labelOf (i : Nat) (m : Json) : String :=
  match m with
  | Json.obj kvs =>
      match jLookup kvs "author" with
      | some (Json.str s) => pyCap s
      | some _ => ""
      | none =>
          match jLookup kvs "role" with
          | some (Json.str s) => pyCap s
          | some _ => ""
          | none => "Message " ++ toString (i + 1) ++ " (Unknown Author)"
  | _ => ""

/-- Statement-side function: the parts list of a message object whose
resolved content is an object with a parts list (else empty). -/
def partsOf (m : Json) : List Json :=
  match m with
  | Json.obj kvs =>
      match resolvedContent kvs with
      | Json.obj ckvs =>
          match jLookup ckvs "parts" with
          | some (Json.arr ps) => ps
          | _ => []
      | _ => []
  | _ => []

/-- Statement-side function: the text value of a part (junk default). -/
def partTextVal : Json → Json
  | Json.obj pkvs => (jLookup pkvs "text").getD Json.null
  | _ => Json.null

/-- Statement-side function: the rendered body texts of a message, one
per part. -/
def partTextsOf (m : Json) : List String :=
  (partsOf m).map fun p => pyStr (partTextVal p)

/-- Statement-side function: the file writes of one well-formed message:
the heading write and one write per part. -/
def renderMsgWrites (i : Nat) (m : Json) : List String :=
  ("## " ++ labelOf i m ++ "\n\n") :: (partTextsOf m).map (fun t => t ++ "\n")

/-- Statement-side function: the file writes of a run of well-formed
messages starting at enumerate index i. -/
def renderAll (i : Nat) : List Json → List String
  | [] => []
  | m :: rest => renderMsgWrites i m ++ renderAll (i + 1) rest

/-- Statement-side function: the console prints of a run of well-formed
messages starting at enumerate index i. -/
def labelsLog (i : Nat) : List Json → List String
  | [] => []
  | m :: rest => labelOf i m :: labelsLog (i + 1) rest

/-- Split a character stream into lines at newline characters. -/
def splitNl : List Char → List (List Char)
  | [] => [[]]
  | c :: rest =>
      if c = '\n' then [] :: splitNl rest
      else
        match splitNl rest with
        | [] => [[c]]
        | l :: ls => (c :: l) :: ls

/-- The character stream of a sequence of file writes. -/
def writesChars : List String → List Char
  | [] => []
  | w :: ws => w.data ++ writesChars ws

/-- The lines of the output file produced by a sequence of writes. -/
def fileLinesC (ws : List String) : List (List Char) :=
  splitNl (writesChars ws)

/-- Is a line a Markdown level-2 heading. -/
def isHeadingLine : List Char → Bool
  | '#' :: '#' :: ' ' :: _ => true
  | _ => false

/-- The characters of the document header line. -/
def headerLineChars : List Char := "# Vertex AI Conversation Log".data

/-- The lines a well-formed message contributes to the output file. -/
def msgBlock (i : Nat) (m : Json) : List (List Char) :=
  ('#' :: '#' :: ' ' :: (labelOf i m).data) :: [] :: (partTextsOf m).map String.data

/-- The lines a run of well-formed messages contributes to the output file. -/
def msgBlocks (i : Nat) : List Json → List (List Char)
  | [] => []
  | m :: rest => msgBlock i m ++ msgBlocks (i + 1) rest

/-- The heading lines of a run of well-formed messages, in input order. -/
def headingLines (i : Nat) : List Json → List (List Char)
  | [] => []
  | m :: rest => ('#' :: '#' :: ' ' :: (labelOf i m).data) :: headingLines (i + 1) rest

/-- A concrete two-message export used to instantiate the rendering theorem. -/
def c3msgs : List Json :=
  [Json.obj [("author", Json.str "user"),
     ("content", Json.obj [("role", Json.str "user"),
       ("parts", Json.arr [Json.obj [("text", Json.str "hi")]])])],
   Json.obj [("role", Json.str "model"),
     ("content", Json.obj [("parts", Json.arr [Json.obj [("text", Json.str "hey")],
       Json.obj [("text", Json.str "there")]])])]]

end CombineJson

namespace CombineJson

/-- A run of texted parts is written out in full, one write per part. -/
lemma writeParts_texted (ps : List Json) (h : ∀ p ∈ ps, isTextedPart p = true) :
    writeParts ps = (ps.map (fun p => pyStr (partTextVal p) ++ "\n"), none) := by
  induction ps with
  | nil => rfl
  | cons p rest ih =>
      have hp := h p (List.mem_cons_self p rest)
      have hr : ∀ q ∈ rest, isTextedPart q = true :=
        fun q hq => h q (List.mem_cons_of_mem _ hq)
      cases p with
      | obj pkvs =>
          simp only [isTextedPart] at hp
          cases hv : jLookup pkvs "text" with
          | none => rw [hv] at hp; simp at hp
          | some t =>
              simp only [writeParts, pySubscript, hv, ih hr, partTextVal,
                List.map_cons, Option.getD_some]
      | null => simp [isTextedPart] at hp
      | bool b => simp [isTextedPart] at hp
      | num n => simp [isTextedPart] at hp
      | str s => simp [isTextedPart] at hp
      | arr xs => simp [isTextedPart] at hp

/-- On a message object with usable author fields, author resolution
returns the statement-side label. -/
lemma resolveAuthor_obj (i : Nat) (kvs : List (String × Json))
    (h : authorOk kvs = true) :
    resolveAuthor i (Json.obj kvs) = Except.ok (labelOf i (Json.obj kvs)) := by
  unfold authorOk at h
  cases ha : jLookup kvs "author" with
  | some v =>
      rw [ha] at h
      cases v with
      | str s =>
          simp [resolveAuthor, pyContains, pyGet, pyCapitalize, ha, labelOf]
      | null => simp at h
      | bool b => simp at h
      | num n => simp at h
      | arr xs => simp at h
      | obj o => simp at h
  | none =>
      rw [ha] at h
      cases hr : jLookup kvs "role" with
      | some v =>
          rw [hr] at h
          cases v with
          | str s =>
              simp [resolveAuthor, pyContains, pyGet, pyCapitalize, ha, hr, labelOf]
          | null => simp at h
          | bool b => simp at h
          | num n => simp at h
          | arr xs => simp at h
          | obj o => simp at h
      | none =>
          simp [resolveAuthor, pyContains, pyGet, pyCapitalize, ha, hr, labelOf]

/-- On a message object, content resolution returns the statement-side
resolved content and cannot raise. -/
lemma resolveContent_obj (kvs : List (String × Json)) :
    resolveContent (Json.obj kvs) = Except.ok (resolvedContent kvs) := by
  unfold resolveContent resolvedContent
  cases hc : jLookup kvs "content" with
  | some v => simp [pyContains, pyGet, hc]
  | none =>
      cases ht : jLookup kvs "text" with
      | some v => simp [pyContains, pyGet, hc, ht]
      | none => simp [pyContains, pyGet, hc, ht]

/-- One loop iteration over a well-formed message writes its heading and
its part texts, prints its label, and raises nothing. -/
lemma processMessage_wf (i : Nat) (m : Json) (h : WfMsg m = true) :
    processMessage i m = (renderMsgWrites i m, [labelOf i m], none) := by
  cases m with
  | obj kvs =>
      simp only [WfMsg, Bool.and_eq_true] at h
      obtain ⟨hauth, hcont⟩ := h
      unfold processMessage
      rw [resolveAuthor_obj i kvs hauth, resolveContent_obj kvs]
      cases hrc : resolvedContent kvs with
      | obj ckvs =>
          rw [hrc] at hcont
          have hcont2 : (match jLookup ckvs "parts" with
              | some (Json.arr ps) => ps.all isTextedPart
              | _ => false) = true := hcont
          cases hps : jLookup ckvs "parts" with
          | some pv =>
              rw [hps] at hcont2
              cases pv with
              | arr ps =>
                  have hall : ∀ p ∈ ps, isTextedPart p = true := by
                    simpa [List.all_eq_true] using hcont2
                  simp only [pySubscript, hps, pyIter,
                    writeParts_texted ps hall, renderMsgWrites, partTextsOf,
                    partsOf, hrc, hps, List.map_map]
                  rfl
              | null => simp at hcont2
              | bool b => simp at hcont2
              | num n => simp at hcont2
              | str s => simp at hcont2
              | obj o => simp at hcont2
          | none => rw [hps] at hcont2; simp at hcont2
      | null => rw [hrc] at hcont; simp at hcont
      | bool b => rw [hrc] at hcont; simp at hcont
      | num n => rw [hrc] at hcont; simp at hcont
      | str s => rw [hrc] at hcont; simp at hcont
      | arr xs => rw [hrc] at hcont; simp at hcont
  | null => simp [WfMsg] at h
  | bool b => simp [WfMsg] at h
  | num n => simp [WfMsg] at h
  | str s => simp [WfMsg] at h
  | arr xs => simp [WfMsg] at h

/-- The loop over a run of well-formed messages writes every rendering,
prints every label, and raises nothing. -/
lemma processMessages_wf (msgs : List Json) (i : Nat)
    (h : ∀ m ∈ msgs, WfMsg m = true) :
    processMessages i msgs = (renderAll i msgs, labelsLog i msgs, none) := by
  induction msgs generalizing i with
  | nil => rfl
  | cons m rest ih =>
      have hm := h m (List.mem_cons_self m rest)
      have hr : ∀ q ∈ rest, WfMsg q = true :=
        fun q hq => h q (List.mem_cons_of_mem _ hq)
      simp only [processMessages, processMessage_wf i m hm, ih (i + 1) hr,
        renderAll, labelsLog, List.cons_append, List.nil_append]

end CombineJson

namespace CombineJson

/-- Splitting at newlines peels off a newline-free prefix as one line. -/
lemma splitNl_flat (t rest : List Char) (h : '\n' ∉ t) :
    splitNl (t ++ '\n' :: rest) = t :: splitNl rest := by
  induction t with
  | nil => simp [splitNl]
  | cons c cs ih =>
      have hc : ¬ c = '\n' := fun e => h (e ▸ List.mem_cons_self c cs)
      have hcs : '\n' ∉ cs := fun m => h (List.mem_cons_of_mem _ m)
      have step : splitNl ((c :: cs) ++ '\n' :: rest)
          = if c = '\n' then [] :: splitNl (cs ++ '\n' :: rest)
            else match splitNl (cs ++ '\n' :: rest) with
                 | [] => [[c]]
                 | l :: ls => (c :: l) :: ls := rfl
      rw [step, if_neg hc, ih hcs]

/-- The character stream of concatenated write runs. -/
lemma writesChars_append (a b : List String) :
    writesChars (a ++ b) = writesChars a ++ writesChars b := by
  induction a with
  | nil => rfl
  | cons w ws ih => simp [writesChars, ih, List.append_assoc]

/-- Newline-free part texts each become one line of the output file. -/
lemma splitNl_texts (ts : List String) (rest : List Char)
    (h : ∀ t ∈ ts, '\n' ∉ t.data) :
    splitNl (writesChars (ts.map (fun t => t ++ "\n")) ++ rest)
      = ts.map String.data ++ splitNl rest := by
  induction ts with
  | nil => simp [writesChars]
  | cons t ts ih =>
      have ht := h t (List.mem_cons_self t ts)
      have hts : ∀ u ∈ ts, '\n' ∉ u.data :=
        fun u hu => h u (List.mem_cons_of_mem _ hu)
      have hdata : (t ++ "\n").data = t.data ++ ['\n'] := by
        rw [String.data_append]
      rw [show writesChars ((t :: ts).map (fun u => u ++ "\n")) ++ rest
          = t.data ++ '\n' :: (writesChars (ts.map (fun u => u ++ "\n")) ++ rest) from by
        simp [writesChars, hdata, List.append_assoc]]
      rw [splitNl_flat t.data _ ht]
      rw [ih hts]
      simp

/-- The writes of one well-formed message contribute its heading line, a
blank line, and one line per part. -/
lemma splitNl_msg (i : Nat) (m : Json) (rest : List Char)
    (hl : '\n' ∉ (labelOf i m).data)
    (ht : ∀ t ∈ partTextsOf m, '\n' ∉ t.data) :
    splitNl (writesChars (renderMsgWrites i m) ++ rest)
      = msgBlock i m ++ splitNl rest := by
  have hhead : '\n' ∉ ('#' :: '#' :: ' ' :: (labelOf i m).data) := by
    intro hm
    rcases List.mem_cons.mp hm with h1 | hm
    · exact absurd h1 (by decide)
    rcases List.mem_cons.mp hm with h1 | hm
    · exact absurd h1 (by decide)
    rcases List.mem_cons.mp hm with h1 | hm
    · exact absurd h1 (by decide)
    exact hl hm
  have hsharp : ("## " : String).data = ['#', '#', ' '] := rfl
  have hnl2 : ("\n\n" : String).data = ['\n', '\n'] := rfl
  have hchars : writesChars (renderMsgWrites i m) ++ rest
      = ('#' :: '#' :: ' ' :: (labelOf i m).data) ++ '\n' ::
        ('\n' :: (writesChars ((partTextsOf m).map (fun t => t ++ "\n")) ++ rest)) := by
    simp only [renderMsgWrites, writesChars, String.data_append, hsharp, hnl2]
    simp [List.append_assoc]
  rw [hchars, splitNl_flat _ _ hhead]
  have hblank : splitNl ('\n' ::
      (writesChars ((partTextsOf m).map (fun t => t ++ "\n")) ++ rest))
      = [] :: splitNl (writesChars ((partTextsOf m).map (fun t => t ++ "\n")) ++ rest) := by
    simp [splitNl]
  rw [hblank, splitNl_texts _ _ ht]
  rfl

/-- The writes of a run of well-formed messages contribute exactly their
blocks of lines, in order. -/
lemma splitNl_msgs (msgs : List Json) (i : Nat) (rest : List Char)
    (hl : ∀ p ∈ msgs.enumFrom i, '\n' ∉ (labelOf p.1 p.2).data)
    (ht : ∀ m ∈ msgs, ∀ t ∈ partTextsOf m, '\n' ∉ t.data) :
    splitNl (writesChars (renderAll i msgs) ++ rest)
      = msgBlocks i msgs ++ splitNl rest := by
  induction msgs generalizing i with
  | nil => simp [renderAll, writesChars, msgBlocks]
  | cons m ms ih =>
      have hlm : '\n' ∉ (labelOf i m).data := by
        apply hl (i, m)
        simp [List.enumFrom]
      have hlms : ∀ p ∈ ms.enumFrom (i + 1), '\n' ∉ (labelOf p.1 p.2).data :=
        fun p hp => hl p (List.mem_cons_of_mem _ hp)
      have htm : ∀ t ∈ partTextsOf m, '\n' ∉ t.data :=
        ht m (List.mem_cons_self m ms)
      have htms : ∀ q ∈ ms, ∀ t ∈ partTextsOf q, '\n' ∉ t.data :=
        fun q hq => ht q (List.mem_cons_of_mem _ hq)
      simp only [renderAll, msgBlocks, writesChars_append, List.append_assoc]
      rw [splitNl_msg i m _ hlm htm, ih (i + 1) hlms htms]

end CombineJson

namespace CombineJson

/-- On a parsed object carrying a nonempty list of well-formed messages,
the conversion body writes every rendering and logs every label followed
by the success line. -/
lemma convertParsed_msgs (f g : String) (kvs : List (String × Json)) (msgs : List Json)
    (hm : jLookup kvs "messages" = some (Json.arr msgs)) (hne : msgs ≠ [])
    (hwf : ∀ m ∈ msgs, WfMsg m = true) :
    convertParsed f g (Json.obj kvs)
      = (renderAll 0 msgs, labelsLog 0 msgs ++ [successLog msgs.length f g], none) := by
  cases msgs with
  | nil => exact absurd rfl hne
  | cons m0 ms =>
      unfold convertParsed
      simp only [pyContains, hm, Option.isSome_some, pySubscript, isList]
      rw [processMessages_wf (m0 :: ms) 0 hwf]
      simp

/-- On a parsed object whose messages list is empty, the conversion body
writes the placeholder and logs the zero-message success line. -/
lemma convertParsed_empty (f g : String) (kvs : List (String × Json))
    (hm : jLookup kvs "messages" = some (Json.arr [])) :
    convertParsed f g (Json.obj kvs) = ([noMsgsWrite], [zeroLog g], none) := by
  unfold convertParsed
  simp only [pyContains, hm, Option.isSome_some, pySubscript, isList]
  simp

/-- On a parsed object lacking a messages key, or carrying a non-list
messages value, the conversion body writes the error section and logs the
shape error line. -/
lemma convertParsed_shape (f g : String) (kvs : List (String × Json))
    (hbad : jLookup kvs "messages" = none ∨
      ∃ v, jLookup kvs "messages" = some v ∧ isList v = false) :
    convertParsed f g (Json.obj kvs) = ([shapeErrWrite], [shapeErrLog f], none) := by
  rcases hbad with hnone | ⟨v, hv, hnl⟩
  · unfold convertParsed
    simp only [pyContains, hnone, Option.isSome_none]
  · unfold convertParsed
    simp only [pyContains, hv, Option.isSome_some, pySubscript, hnl, if_false]
    cases v with
    | arr xs => simp [isList] at hnl
    | null => rfl
    | bool b => rfl
    | num n => rfl
    | str s => rfl
    | obj o => rfl

/-- The loop on a list with a well-formed prefix accumulates the prefix
renderings and continues at the shifted index. -/
lemma processMessages_splitRun (pre : List Json) (i : Nat) (rest : List Json)
    (h : ∀ m ∈ pre, WfMsg m = true) :
    processMessages i (pre ++ rest)
      = (renderAll i pre ++ (processMessages (i + pre.length) rest).1,
         labelsLog i pre ++ (processMessages (i + pre.length) rest).2.1,
         (processMessages (i + pre.length) rest).2.2) := by
  induction pre generalizing i with
  | nil => simp [renderAll, labelsLog]
  | cons m ms ih =>
      have hm := h m (List.mem_cons_self m ms)
      have hms : ∀ q ∈ ms, WfMsg q = true :=
        fun q hq => h q (List.mem_cons_of_mem _ hq)
      have harith : i + (m :: ms).length = (i + 1) + ms.length := by
        simp [List.length_cons]; omega
      simp only [List.cons_append, List.append_eq, processMessages,
        processMessage_wf i m hm, ih (i + 1) hms, renderAll, labelsLog, harith,
        List.append_assoc, List.cons_append, List.nil_append]

/-- The parts loop on a list with a texted prefix and a part lacking text
writes the prefix texts and stops with the subscription error. -/
lemma writeParts_splitRun (good : List Json) (badp : Json) (more : List Json) (e : PyErr)
    (h : ∀ p ∈ good, isTextedPart p = true)
    (he : pySubscript badp "text" = Except.error e) :
    writeParts (good ++ badp :: more)
      = (good.map (fun p => pyStr (partTextVal p) ++ "\n"), some e) := by
  induction good with
  | nil => simp [writeParts, he]
  | cons p ps ih =>
      have hp := h p (List.mem_cons_self p ps)
      have hps : ∀ q ∈ ps, isTextedPart q = true :=
        fun q hq => h q (List.mem_cons_of_mem _ hq)
      cases p with
      | obj pkvs =>
          simp only [isTextedPart] at hp
          cases hv : jLookup pkvs "text" with
          | none => rw [hv] at hp; simp at hp
          | some t =>
              simp only [List.cons_append, List.append_eq, writeParts, pySubscript, hv]
              rw [ih hps]
              simp [partTextVal, hv]
      | null => simp [isTextedPart] at hp
      | bool b => simp [isTextedPart] at hp
      | num n => simp [isTextedPart] at hp
      | str s => simp [isTextedPart] at hp
      | arr xs => simp [isTextedPart] at hp

/-- There is one heading line per message. -/
lemma headingLines_length (msgs : List Json) (i : Nat) :
    (headingLines i msgs).length = msgs.length := by
  induction msgs generalizing i with
  | nil => rfl
  | cons m ms ih => simp [headingLines, ih]

/-- Filtering the message blocks for heading lines keeps exactly the
heading of each message, in order. -/
lemma filter_msgBlocks (msgs : List Json) (i : Nat)
    (ht : ∀ m ∈ msgs, ∀ t ∈ partTextsOf m, isHeadingLine t.data = false) :
    (msgBlocks i msgs).filter isHeadingLine = headingLines i msgs := by
  induction msgs generalizing i with
  | nil => rfl
  | cons m ms ih =>
      have htm := ht m (List.mem_cons_self m ms)
      have htms : ∀ q ∈ ms, ∀ t ∈ partTextsOf q, isHeadingLine t.data = false :=
        fun q hq => ht q (List.mem_cons_of_mem _ hq)
      have hmap : ((partTextsOf m).map String.data).filter isHeadingLine = [] := by
        rw [List.filter_eq_nil_iff]
        intro a ha
        obtain ⟨t, htmem, rfl⟩ := List.mem_map.mp ha
        simp [htm t htmem]
      simp only [msgBlocks, msgBlock, headingLines, List.filter_append,
        List.filter_cons, ih _ htms]
      simp [isHeadingLine, hmap]

/-- The full output file of a well-formed conversion, as lines: the header
line, a blank line, the message blocks, and the trailing empty line after
the final newline. -/
lemma fileLinesC_wf (msgs : List Json)
    (hl : ∀ p ∈ msgs.enumFrom 0, '\n' ∉ (labelOf p.1 p.2).data)
    (ht : ∀ m ∈ msgs, ∀ t ∈ partTextsOf m, '\n' ∉ t.data) :
    fileLinesC (headerWrite :: renderAll 0 msgs)
      = headerLineChars :: [] :: (msgBlocks 0 msgs ++ [[]]) := by
  unfold fileLinesC
  have hhd : headerWrite.data = headerLineChars ++ '\n' :: '\n' :: [] := rfl
  have h1 : writesChars (headerWrite :: renderAll 0 msgs)
      = headerLineChars ++ '\n' :: ('\n' :: (writesChars (renderAll 0 msgs) ++ [])) := by
    simp [writesChars, hhd, List.append_assoc]
  have hhdr : '\n' ∉ headerLineChars := by decide
  rw [h1, splitNl_flat _ _ hhdr]
  have hblank : splitNl ('\n' :: (writesChars (renderAll 0 msgs) ++ []))
      = [] :: splitNl (writesChars (renderAll 0 msgs) ++ []) := by
    simp [splitNl]
  rw [hblank, splitNl_msgs msgs 0 [] hl ht]
  rfl

/-- One loop iteration whose author and content resolve but whose content
rejects the parts subscription prints the label, writes nothing, and
raises the subscription error before the heading write. -/
lemma processMessage_noParts (i : Nat) (bad : Json) (au : String) (c : Json) (e : PyErr)
    (ha : resolveAuthor i bad = Except.ok au)
    (hc : resolveContent bad = Except.ok c)
    (hp : pySubscript c "parts" = Except.error e) :
    processMessage i bad = ([], [au], some e) := by
  unfold processMessage
  simp only [ha, hc, hp]

/-- One loop iteration whose content has a parts list with a texted prefix
followed by a part lacking text writes the heading and prefix texts, then
raises the part subscription error. -/
lemma processMessage_badPart (i : Nat) (bad : Json) (au : String)
    (ckvs : List (String × Json)) (good : List Json) (badp : Json) (more : List Json)
    (e : PyErr)
    (ha : resolveAuthor i bad = Except.ok au)
    (hc : resolveContent bad = Except.ok (Json.obj ckvs))
    (hps : jLookup ckvs "parts" = some (Json.arr (good ++ badp :: more)))
    (hgood : ∀ p ∈ good, isTextedPart p = true)
    (he : pySubscript badp "text" = Except.error e) :
    processMessage i bad
      = (("## " ++ au ++ "\n\n") :: good.map (fun p => pyStr (partTextVal p) ++ "\n"),
         [au], some e) := by
  unfold processMessage
  simp only [ha, hc, pySubscript, hps, pyIter,
    writeParts_splitRun good badp more e hgood he]

/-- With a well-formed prefix and a failing iteration, the conversion body
keeps the prefix writes and prints, and stops with the error; later
messages are not processed. -/
lemma convertParsed_stop (f g : String) (pre : List Json) (bad : Json) (rest : List Json)
    (w2 l2 : List String) (e : PyErr)
    (hwf : ∀ m ∈ pre, WfMsg m = true)
    (hbad : processMessage pre.length bad = (w2, l2, some e)) :
    convertParsed f g (Json.obj [("messages", Json.arr (pre ++ bad :: rest))])
      = (renderAll 0 pre ++ w2, labelsLog 0 pre ++ l2, some e) := by
  unfold convertParsed
  have hlk : jLookup [("messages", Json.arr (pre ++ bad :: rest))] "messages"
      = some (Json.arr (pre ++ bad :: rest)) := rfl
  simp only [pyContains, hlk, Option.isSome_some, pySubscript, isList]
  have hemp : (pre ++ bad :: rest).isEmpty = false := by cases pre <;> rfl
  have hstep : processMessages (0 + pre.length) (bad :: rest) = (w2, l2, some e) := by
    simp only [Nat.zero_add, processMessages, hbad]
  rw [processMessages_splitRun pre 0 (bad :: rest) hwf, hstep]
  simp [hemp]

/-- The missing-messages log line and the parse-failure log line differ
for every input path: their eighth characters differ. -/
lemma shapeLog_ne_parseLog (f : String) : shapeErrLog f ≠ parseLog f := by
  intro hEq
  have h2 := congrArg (fun s => s.data.get? 7) hEq
  simp only [shapeErrLog, parseLog, String.data_append] at h2
  rw [List.append_assoc, List.append_assoc] at h2
  rw [List.get?_eq_getElem?, List.get?_eq_getElem?] at h2
  rw [List.getElem?_append_left (by decide), List.getElem?_append_left (by decide)] at h2
  simp at h2

end CombineJson

namespace CombineJson

/-- C1: contrary to the claim (and to the docstring of the source), a
message whose resolved content is a plain string (text-fallback path, and
missing-content placeholder path) is NOT written directly as the body: the
code still subscripts the string with the parts key, which raises a
TypeError caught by the generic handler; the conversion stops with no body
written. This theorem evaluates the code at both failing inputs. -/
theorem claim1_thm :
    (convert "chat.json" "chat.md"
        (ConvInput.parsed (Json.obj [("messages",
          Json.arr [Json.obj [("author", Json.str "user"), ("text", Json.str "Hello")]])]))
      = ⟨some [headerWrite],
         ["User", "An unexpected error occurred: string indices must be integers"]⟩) ∧
    (convert "chat.json" "chat.md"
        (ConvInput.parsed (Json.obj [("messages",
          Json.arr [Json.obj [("author", Json.str "user")]])]))
      = ⟨some [headerWrite],
         ["User", "An unexpected error occurred: string indices must be integers"]⟩) :=
  ⟨rfl, rfl⟩

/-- C2 counterexample: a structured content lacking parts does not crash
the process unreported: the outer generic handler catches the KeyError and
prints the unexpected-error line, and the script exit code is 0.  The
second, well-formed message is indeed not processed, but the claim that
the error propagates as a fatal crash rather than being caught and
reported is false. -/
theorem claim2_counterexample :
    convert "c.json" "c.md"
      (ConvInput.parsed (Json.obj [("messages",
        Json.arr [Json.obj [("author", Json.str "user"),
            ("content", Json.obj [("role", Json.str "user")])],
          Json.obj [("author", Json.str "model"),
            ("content", Json.obj [("parts",
              Json.arr [Json.obj [("text", Json.str "later")]])])]])]))
      = ⟨some [headerWrite],
         ["User", "An unexpected error occurred: \x27parts\x27"]⟩ ∧
    scriptExitCode "c.json" "c.md"
      (ConvInput.parsed (Json.obj [("messages",
        Json.arr [Json.obj [("author", Json.str "user"),
            ("content", Json.obj [("role", Json.str "user")])],
          Json.obj [("author", Json.str "model"),
            ("content", Json.obj [("parts",
              Json.arr [Json.obj [("text", Json.str "later")]])])]])])) = 0 :=
  ⟨rfl, rfl⟩

/-- C2 amended: whichever way a malformed message fails, the conversion
aborts with no further messages processed and an incomplete output file,
but the exception is caught by the top-level generic handler and reported
to the log as an unexpected error, and the process does not crash (exit
code 0).  First case: the resolved content rejects the parts subscription.
Second case: the parts list has a texted prefix and then a part lacking
text, so the failure occurs inside the parts loop after the heading and
the prefix part lines were written. -/
theorem claim2_amended (f g : String) (pre : List Json) (bad : Json) (rest : List Json)
    (hwf : ∀ m ∈ pre, WfMsg m = true) :
    (∀ au c e, resolveAuthor pre.length bad = Except.ok au →
        resolveContent bad = Except.ok c →
        pySubscript c "parts" = Except.error e →
        convert f g (ConvInput.parsed
            (Json.obj [("messages", Json.arr (pre ++ bad :: rest))]))
          = ⟨some (headerWrite :: renderAll 0 pre),
             labelsLog 0 pre ++ [au, unexpectedLog e]⟩ ∧
        scriptExitCode f g (ConvInput.parsed
            (Json.obj [("messages", Json.arr (pre ++ bad :: rest))])) = 0) ∧
    (∀ au ckvs good badp more e,
        resolveAuthor pre.length bad = Except.ok au →
        resolveContent bad = Except.ok (Json.obj ckvs) →
        jLookup ckvs "parts" = some (Json.arr (good ++ badp :: more)) →
        (∀ p ∈ good, isTextedPart p = true) →
        pySubscript badp "text" = Except.error e →
        convert f g (ConvInput.parsed
            (Json.obj [("messages", Json.arr (pre ++ bad :: rest))]))
          = ⟨some (headerWrite :: (renderAll 0 pre ++
              (("## " ++ au ++ "\n\n") ::
                good.map (fun p => pyStr (partTextVal p) ++ "\n")))),
             labelsLog 0 pre ++ [au, unexpectedLog e]⟩ ∧
        scriptExitCode f g (ConvInput.parsed
            (Json.obj [("messages", Json.arr (pre ++ bad :: rest))])) = 0) := by
  constructor
  · intro au c e ha hc hp
    have hstop := convertParsed_stop f g pre bad rest [] [au] e hwf
      (processMessage_noParts pre.length bad au c e ha hc hp)
    constructor
    · simp only [convert, hstop]
      simp
    · simp [scriptExitCode, convertEscape, hstop, pyExceptionIsCaught]
  · intro au ckvs good badp more e ha hc hps hgood he
    have hstop := convertParsed_stop f g pre bad rest _ [au] e hwf
      (processMessage_badPart pre.length bad au ckvs good badp more e ha hc hps hgood he)
    constructor
    · simp only [convert, hstop]
      simp
    · simp [scriptExitCode, convertEscape, hstop, pyExceptionIsCaught]

/-- C2 amended witness: both failure modes at concrete one-message inputs:
a content lacking parts, and a parts list whose second part lacks text;
each is reported by the generic handler with exit code 0. -/
theorem claim2_amended_witness :
    (convert "c.json" "c.md" (ConvInput.parsed (Json.obj [("messages",
        Json.arr [Json.obj [("content", Json.obj [("role", Json.str "user")])]])]))
      = ⟨some [headerWrite],
         ["Message 1 (Unknown Author)", unexpectedLog (PyErr.keyErr "parts")]⟩ ∧
     scriptExitCode "c.json" "c.md" (ConvInput.parsed (Json.obj [("messages",
        Json.arr [Json.obj [("content", Json.obj [("role", Json.str "user")])]])])) = 0) ∧
    (convert "c.json" "c.md" (ConvInput.parsed (Json.obj [("messages",
        Json.arr ([] ++ Json.obj [("author", Json.str "bot"),
          ("content", Json.obj [("parts", Json.arr
            ([Json.obj [("text", Json.str "ok")]] ++ Json.obj [] :: []))])] :: []))]))
      = ⟨some (headerWrite :: (renderAll 0 [] ++
          (("## " ++ "Bot" ++ "\n\n") ::
            [Json.obj [("text", Json.str "ok")]].map
              (fun p => pyStr (partTextVal p) ++ "\n")))),
         labelsLog 0 [] ++ ["Bot", unexpectedLog (PyErr.keyErr "text")]⟩ ∧
     scriptExitCode "c.json" "c.md" (ConvInput.parsed (Json.obj [("messages",
        Json.arr ([] ++ Json.obj [("author", Json.str "bot"),
          ("content", Json.obj [("parts", Json.arr
            ([Json.obj [("text", Json.str "ok")]] ++ Json.obj [] :: []))])] :: []))])) = 0) :=
  ⟨(claim2_amended "c.json" "c.md" []
      (Json.obj [("content", Json.obj [("role", Json.str "user")])]) []
      (by simp)).1
    "Message 1 (Unknown Author)" (Json.obj [("role", Json.str "user")])
    (PyErr.keyErr "parts") rfl rfl rfl,
   (claim2_amended "c.json" "c.md" []
      (Json.obj [("author", Json.str "bot"),
        ("content", Json.obj [("parts", Json.arr
          ([Json.obj [("text", Json.str "ok")]] ++ Json.obj [] :: []))])]) []
      (by simp)).2
    "Bot" [("parts", Json.arr ([Json.obj [("text", Json.str "ok")]] ++ Json.obj [] :: []))]
    [Json.obj [("text", Json.str "ok")]] (Json.obj []) []
    (PyErr.keyErr "text") rfl rfl rfl (by decide) rfl⟩

/-- C3: for every valid input whose messages list has at least one message,
all well formed, the output file is the header followed by each message
rendering in input order, and (under the side conditions that labels and
part texts contain no newline and no part text looks like a heading) its
lines contain exactly one level-2 heading per message, in input order,
each followed by a blank line and that message body, one line per part. -/
theorem claim3_thm (f g : String) (kvs : List (String × Json)) (msgs : List Json)
    (hmsgs : jLookup kvs "messages" = some (Json.arr msgs))
    (hne : msgs ≠ [])
    (hwf : ∀ m ∈ msgs, WfMsg m = true)
    (hlab : ∀ p ∈ msgs.enumFrom 0, '\n' ∉ (labelOf p.1 p.2).data)
    (htxt : ∀ m ∈ msgs, ∀ t ∈ partTextsOf m,
      '\n' ∉ t.data ∧ isHeadingLine t.data = false) :
    (convert f g (ConvInput.parsed (Json.obj kvs))).fileWrites
        = some (headerWrite :: renderAll 0 msgs) ∧
    fileLinesC (headerWrite :: renderAll 0 msgs)
        = headerLineChars :: [] :: (msgBlocks 0 msgs ++ [[]]) ∧
    (fileLinesC (headerWrite :: renderAll 0 msgs)).filter isHeadingLine
        = headingLines 0 msgs ∧
    (headingLines 0 msgs).length = msgs.length := by
  have ht1 : ∀ m ∈ msgs, ∀ t ∈ partTextsOf m, '\n' ∉ t.data :=
    fun m hm t htm => (htxt m hm t htm).1
  have ht2 : ∀ m ∈ msgs, ∀ t ∈ partTextsOf m, isHeadingLine t.data = false :=
    fun m hm t htm => (htxt m hm t htm).2
  have hfw : (convert f g (ConvInput.parsed (Json.obj kvs))).fileWrites
      = some (headerWrite :: renderAll 0 msgs) := by
    simp only [convert, convertParsed_msgs f g kvs msgs hmsgs hne hwf]
  have hlines := fileLinesC_wf msgs hlab ht1
  refine ⟨hfw, hlines, ?_, headingLines_length msgs 0⟩
  rw [hlines]
  have hh : isHeadingLine headerLineChars = false := rfl
  have hnil : isHeadingLine [] = false := rfl
  simp [List.filter_cons, List.filter_append, filter_msgBlocks msgs 0 ht2, hh, hnil]

/-- C3 witness: the rendering statement at a concrete two-message input. -/
theorem claim3_witness :
    (convert "a.json" "a.md"
        (ConvInput.parsed (Json.obj [("messages", Json.arr c3msgs)]))).fileWrites
        = some (headerWrite :: renderAll 0 c3msgs) ∧
    fileLinesC (headerWrite :: renderAll 0 c3msgs)
        = headerLineChars :: [] :: (msgBlocks 0 c3msgs ++ [[]]) ∧
    (fileLinesC (headerWrite :: renderAll 0 c3msgs)).filter isHeadingLine
        = headingLines 0 c3msgs ∧
    (headingLines 0 c3msgs).length = c3msgs.length :=
  claim3_thm "a.json" "a.md" [("messages", Json.arr c3msgs)] c3msgs rfl
    (by simp [c3msgs]) (by decide) (by decide) (by decide)

end CombineJson

namespace CombineJson

/-- C4 counterexample: a successfully parsed top-level value that is not an
object (here the number 42) does not get the error section the claim
promises: subscripting is never reached because the membership test itself
raises a TypeError caught by the generic handler, so the output consists
of the header alone, with no error section. -/
theorem claim4_counterexample :
    convert "in.json" "out.md" (ConvInput.parsed (Json.num 42))
      = ⟨some [headerWrite],
         [unexpectedLog (PyErr.typeErr "argument of type \x27int\x27 is not iterable")]⟩ ∧
    shapeErrWrite ∉ [headerWrite] ∧ parseErrWrite ∉ [headerWrite] :=
  ⟨rfl, by decide, by decide⟩

/-- C4 amended: for every successfully parsed top-level object lacking a
messages field whose value is a list, and for every input failing JSON
parsing, the output is the header followed by the error section with a
one-line description, the error is logged, the two log lines have distinct
wording, and the conversion terminates there. -/
theorem claim4_amended (f g : String) (kvs : List (String × Json))
    (hbad : jLookup kvs "messages" = none ∨
      ∃ v, jLookup kvs "messages" = some v ∧ isList v = false) :
    convert f g (ConvInput.parsed (Json.obj kvs))
        = ⟨some [headerWrite, shapeErrWrite], [shapeErrLog f]⟩ ∧
    convert f g ConvInput.parseFail
        = ⟨some [headerWrite, parseErrWrite], [parseLog f]⟩ ∧
    shapeErrLog f ≠ parseLog f := by
  refine ⟨?_, rfl, shapeLog_ne_parseLog f⟩
  simp only [convert, convertParsed_shape f g kvs hbad]

/-- C4 amended witness: the amended statement at a concrete object lacking
the messages field. -/
theorem claim4_witness :
    convert "in.json" "out.md" (ConvInput.parsed (Json.obj [("context", Json.str "x")]))
        = ⟨some [headerWrite, shapeErrWrite], [shapeErrLog "in.json"]⟩ ∧
    convert "in.json" "out.md" ConvInput.parseFail
        = ⟨some [headerWrite, parseErrWrite], [parseLog "in.json"]⟩ ∧
    shapeErrLog "in.json" ≠ parseLog "in.json" :=
  claim4_amended "in.json" "out.md" [("context", Json.str "x")] (Or.inl rfl)

/-- C5 counterexample: on a JSON parse failure the tool does write the
header and the error section, but the script signals success: no sys.exit
is ever called and the parse error is caught, so the process exit code is
0, not the non-zero failure signal the claim promises. -/
theorem claim5_counterexample :
    scriptExitCode "in.json" "out.md" ConvInput.parseFail = 0 ∧
    (convert "in.json" "out.md" ConvInput.parseFail).fileWrites
        = some [headerWrite, parseErrWrite] :=
  ⟨rfl, rfl⟩

/-- C5 amended: for every input that is not valid JSON, the output file
contains the header and the error section and the error is logged, but the
tool completes with a success signal (exit code 0); no failure is signaled
to the caller. -/
theorem claim5_amended (f g : String) :
    convert f g ConvInput.parseFail
        = ⟨some [headerWrite, parseErrWrite], [parseLog f]⟩ ∧
    scriptExitCode f g ConvInput.parseFail = 0 :=
  ⟨rfl, rfl⟩

/-- C6: when the input path cannot be opened, the conversion logs the
not-found line and aborts before any output is produced: the input file is
opened before the output file in the with statement, so the output file is
never created or truncated (fileWrites is none). -/
theorem claim6_thm (f g : String) :
    convert f g ConvInput.notFound = ⟨none, [notFoundLog f]⟩ := rfl

/-- C7: author resolution precedence: a message object with an author
field holding a string uses that value capitalized (whether or not a role
field is present), a message with no author key but a role string uses the
role value capitalized, and a message with neither key uses exactly the
synthesized placeholder naming position i+1, where i is the 0-based
enumerate index the loop passes for the message. -/
theorem claim7_thm (i : Nat) (kvs : List (String × Json)) :
    (∀ a, jLookup kvs "author" = some (Json.str a) →
        resolveAuthor i (Json.obj kvs) = Except.ok (pyCap a)) ∧
    (∀ r, jLookup kvs "author" = none → jLookup kvs "role" = some (Json.str r) →
        resolveAuthor i (Json.obj kvs) = Except.ok (pyCap r)) ∧
    (jLookup kvs "author" = none → jLookup kvs "role" = none →
        resolveAuthor i (Json.obj kvs)
          = Except.ok ("Message " ++ toString (i + 1) ++ " (Unknown Author)")) := by
  refine ⟨?_, ?_, ?_⟩
  · intro a ha
    simp [resolveAuthor, pyContains, pyGet, pyCapitalize, ha]
  · intro r ha hr
    simp [resolveAuthor, pyContains, pyGet, pyCapitalize, ha, hr]
  · intro ha hr
    simp [resolveAuthor, pyContains, pyGet, pyCapitalize, ha, hr]

/-- C7 witness: precedence at concrete messages: both fields present uses
author; role only uses role; neither yields the position placeholder. -/
theorem claim7_witness :
    resolveAuthor 0 (Json.obj [("author", Json.str "user"), ("role", Json.str "model")])
        = Except.ok "User" ∧
    resolveAuthor 1 (Json.obj [("role", Json.str "model")]) = Except.ok "Model" ∧
    resolveAuthor 2 (Json.obj [("x", Json.num 1)])
        = Except.ok "Message 3 (Unknown Author)" :=
  ⟨(claim7_thm 0 _).1 "user" rfl,
   (claim7_thm 1 _).2.1 "model" rfl rfl,
   (claim7_thm 2 _).2.2 rfl rfl⟩

/-- C8: on a parsed object whose messages field is an empty list, the
output file is exactly the header write followed by the placeholder line,
the zero-message success line is logged, the conversion terminates
normally, and the file lines contain no level-2 heading. -/
theorem claim8_thm (f g : String) (kvs : List (String × Json))
    (hm : jLookup kvs "messages" = some (Json.arr [])) :
    convert f g (ConvInput.parsed (Json.obj kvs))
        = ⟨some [headerWrite, noMsgsWrite], [zeroLog g]⟩ ∧
    (fileLinesC [headerWrite, noMsgsWrite]).filter isHeadingLine = [] := by
  refine ⟨?_, by decide⟩
  simp only [convert, convertParsed_empty f g kvs hm]

/-- C8 witness: the empty-messages statement at the concrete input. -/
theorem claim8_witness :
    convert "a.json" "a.md"
        (ConvInput.parsed (Json.obj [("messages", Json.arr [])]))
        = ⟨some [headerWrite, noMsgsWrite], [zeroLog "a.md"]⟩ ∧
    (fileLinesC [headerWrite, noMsgsWrite]).filter isHeadingLine = [] :=
  claim8_thm "a.json" "a.md" [("messages", Json.arr [])] rfl

end CombineJson

namespace CombineJson

/-- C9: the parts lookup on the resolved content happens before the
heading write.  First case: if the messages are a well-formed prefix
followed by a message whose content lookup for parts fails, the output
file is exactly the header plus the complete renderings of the prefix,
with no heading written for the failing message.  Second case: if instead
the failure is a part lacking text after a texted prefix of parts, the
already-written heading and prefix part lines remain at the end of the
file. -/
theorem claim9_thm (f g : String) (pre : List Json) (bad : Json) (rest : List Json)
    (hwf : ∀ m ∈ pre, WfMsg m = true) :
    (∀ au c e, resolveAuthor pre.length bad = Except.ok au →
        resolveContent bad = Except.ok c →
        pySubscript c "parts" = Except.error e →
        (convert f g (ConvInput.parsed
            (Json.obj [("messages", Json.arr (pre ++ bad :: rest))]))).fileWrites
          = some (headerWrite :: renderAll 0 pre)) ∧
    (∀ au ckvs good badp more e,
        resolveAuthor pre.length bad = Except.ok au →
        resolveContent bad = Except.ok (Json.obj ckvs) →
        jLookup ckvs "parts" = some (Json.arr (good ++ badp :: more)) →
        (∀ p ∈ good, isTextedPart p = true) →
        pySubscript badp "text" = Except.error e →
        (convert f g (ConvInput.parsed
            (Json.obj [("messages", Json.arr (pre ++ bad :: rest))]))).fileWrites
          = some (headerWrite :: (renderAll 0 pre ++
              (("## " ++ au ++ "\n\n") ::
                good.map (fun p => pyStr (partTextVal p) ++ "\n"))))) := by
  constructor
  · intro au c e ha hc hp
    have hstop := convertParsed_stop f g pre bad rest [] [au] e hwf
      (processMessage_noParts pre.length bad au c e ha hc hp)
    simp only [convert, hstop]
    simp
  · intro au ckvs good badp more e ha hc hps hgood he
    have hstop := convertParsed_stop f g pre bad rest _ [au] e hwf
      (processMessage_badPart pre.length bad au ckvs good badp more e ha hc hps hgood he)
    simp only [convert, hstop]

/-- C9 witness: both cases at concrete inputs: a second message whose
content lacks parts leaves only the first rendering and the header, and a
sole message whose second part lacks text leaves its heading and first
part line. -/
theorem claim9_witness :
    (convert "a.json" "a.md" (ConvInput.parsed (Json.obj [("messages", Json.arr
        ([Json.obj [("author", Json.str "user"),
            ("content", Json.obj [("parts", Json.arr [Json.obj [("text", Json.str "hi")]])])]]
          ++ Json.obj [("author", Json.str "model"), ("content", Json.obj [])]
          :: []))]))).fileWrites
      = some (headerWrite :: renderAll 0
          [Json.obj [("author", Json.str "user"),
            ("content", Json.obj [("parts", Json.arr [Json.obj [("text", Json.str "hi")]])])]]) ∧
    (convert "a.json" "a.md" (ConvInput.parsed (Json.obj [("messages", Json.arr
        ([] ++ Json.obj [("author", Json.str "model"),
            ("content", Json.obj [("parts", Json.arr
              ([Json.obj [("text", Json.str "ok")]] ++ Json.obj [] :: []))])]
          :: []))]))).fileWrites
      = some (headerWrite :: (renderAll 0 [] ++
          (("## " ++ "Model" ++ "\n\n") ::
            [Json.obj [("text", Json.str "ok")]].map
              (fun p => pyStr (partTextVal p) ++ "\n")))) :=
  ⟨(claim9_thm "a.json" "a.md"
      [Json.obj [("author", Json.str "user"),
        ("content", Json.obj [("parts", Json.arr [Json.obj [("text", Json.str "hi")]])])]]
      (Json.obj [("author", Json.str "model"), ("content", Json.obj [])]) []
      (by decide)).1
    "Model" (Json.obj []) (PyErr.keyErr "parts") rfl rfl rfl,
   (claim9_thm "a.json" "a.md" []
      (Json.obj [("author", Json.str "model"),
        ("content", Json.obj [("parts", Json.arr
          ([Json.obj [("text", Json.str "ok")]] ++ Json.obj [] :: []))])]) []
      (by decide)).2
    "Model" [("parts", Json.arr ([Json.obj [("text", Json.str "ok")]] ++ Json.obj [] :: []))]
    [Json.obj [("text", Json.str "ok")]] (Json.obj []) []
    (PyErr.keyErr "text") rfl rfl rfl (by decide) rfl⟩

/-- C10: a present author string (or, with no author key, a present role
string) renders as the string with its first character uppercased and
every remaining character lowercased, which is how the modelled
str.capitalize is defined, not merely the first character uppercased. -/
theorem claim10_thm (i : Nat) (kvs : List (String × Json))
    (s : String) (c : Char) (cs : List Char) (hs : s.data = c :: cs) :
    (jLookup kvs "author" = some (Json.str s) →
        resolveAuthor i (Json.obj kvs)
          = Except.ok (String.mk (c.toUpper :: cs.map Char.toLower))) ∧
    (jLookup kvs "author" = none → jLookup kvs "role" = some (Json.str s) →
        resolveAuthor i (Json.obj kvs)
          = Except.ok (String.mk (c.toUpper :: cs.map Char.toLower))) := by
  have hcap : pyCap s = String.mk (c.toUpper :: cs.map Char.toLower) := by
    unfold pyCap
    rw [hs]
  constructor
  · intro ha
    simp [resolveAuthor, pyContains, pyGet, pyCapitalize, ha, hcap]
  · intro ha hr
    simp [resolveAuthor, pyContains, pyGet, pyCapitalize, ha, hr, hcap]

/-- C10 witness: USER renders as User and model x renders as Model x. -/
theorem claim10_witness :
    resolveAuthor 0 (Json.obj [("author", Json.str "USER")]) = Except.ok "User" ∧
    resolveAuthor 0 (Json.obj [("role", Json.str "model x")]) = Except.ok "Model x" :=
  ⟨(claim10_thm 0 [("author", Json.str "USER")] "USER" 'U' ['S', 'E', 'R'] rfl).1 rfl,
   (claim10_thm 0 [("role", Json.str "model x")] "model x" 'm'
      ['o', 'd', 'e', 'l', ' ', 'x'] rfl).2 rfl rfl⟩

end CombineJson
